import Mathlib

/-!
Shallow embedding of the binary asset ingestion subsystem of the
wgpu-renderer repository: the Radiance HDR decoder (`HDRLoader.parseHDR`)
and the glTF scene loader (`glTFLoader`). JavaScript numbers are modelled
as `Nat`/`ℚ`, typed arrays as lists, and the potentially nonterminating
RLE decode loops as fuelled functions returning `Option` (where `none`
means the computation did not finish within the given fuel).
-/

namespace WgpuRenderer

/-! ## Radiance HDR decoder (HDRLoader.parseHDR) -/

inductive HDRError where
  | UnsupportedFormat
  | MissingResolution
  | UnsupportedEncoding
  deriving DecidableEq

structure HDRImage where
  width : Nat
  height : Nat
  data : List ℚ
  deriving DecidableEq

instance {ε α : Type} [DecidableEq ε] [DecidableEq α] : DecidableEq (Except ε α) :=
  fun a b =>
    match a, b with
    | .ok x, .ok y =>
      match decEq x y with
      | isTrue h => isTrue (h ▸ rfl)
      | isFalse h => isFalse (fun hh => h (Except.ok.inj hh))
    | .error x, .error y =>
      match decEq x y with
      | isTrue h => isTrue (h ▸ rfl)
      | isFalse h => isFalse (fun hh => h (Except.error.inj hh))
    | .ok _, .error _ => isFalse (fun hh => Except.noConfusion hh)
    | .error _, .ok _ => isFalse (fun hh => Except.noConfusion hh)

/-- ASCII byte list of a string literal. -/
def ascii (s : String) : List Nat :=
  s.toList.map Char.toNat

/-- Substring containment on byte lists, mirroring JS `String.includes`. -/
def containsSub : List Nat → List Nat → Bool
  | [], p => p.isEmpty
  | b :: t, p => p.isPrefixOf (b :: t) || containsSub t p

/-- The header scan loop of `parseHDR`: consume one byte at a time into the
accumulated header, stopping after a line-feed byte once the header
contains both `"-Y "` and `" +X "`. Returns the header and remaining bytes. -/
def headerScan : List Nat → List Nat → List Nat × List Nat
  | acc, [] => (acc, [])
  | acc, b :: rest =>
    let acc' := acc ++ [b]
    if b = 10 ∧ containsSub acc' (ascii "-Y ") ∧ containsSub acc' (ascii " +X ")
    then (acc', rest)
    else headerScan acc' rest

def isDigitByte (b : Nat) : Bool := 48 ≤ b && b ≤ 57

def digitsToNat (l : List Nat) : Nat :=
  l.foldl (fun a b => a * 10 + (b - 48)) 0

/-- Try to match the resolution pattern `-Y <digits> +X <digits>` at the head
of the list, as the JS regex (dash, Y, space, digits, space, plus, X,
space, digits) would. Returns
(height, width), i.e. the first and second capture. -/
def matchResAt (l : List Nat) : Option (Nat × Nat) :=
  if (ascii "-Y ").isPrefixOf l then
    let l1 := l.drop 3
    let d1 := l1.takeWhile isDigitByte
    let l2 := l1.dropWhile isDigitByte
    if d1.isEmpty then none
    else if (ascii " +X ").isPrefixOf l2 then
      let l3 := l2.drop 4
      let d2 := l3.takeWhile isDigitByte
      if d2.isEmpty then none
      else some (digitsToNat d1, digitsToNat d2)
    else none
  else none

/-- Leftmost match of the resolution regex over the header bytes. -/
def findResolution : List Nat → Option (Nat × Nat)
  | [] => none
  | b :: rest =>
    match matchResAt (b :: rest) with
    | some r => some r
    | none => findResolution rest

/-- Write a repeat run: `runLength` copies of `value` at scanline indices
`i + pos*4`, `i + (pos+1)*4`, ... (`List.set` ignores out-of-range indices,
as stores to out-of-range typed-array indices are ignored in JS). -/
def writeRun (i value : Nat) : Nat → Nat → List Nat → List Nat
  | 0, _pos, scan => scan
  | n + 1, pos, scan => writeRun i value n (pos + 1) (scan.set (i + pos * 4) value)

/-- Write a literal run of the given values. -/
def writeLit (i : Nat) : List Nat → Nat → List Nat → List Nat
  | [], _pos, scan => scan
  | v :: vs, pos, scan => writeLit i vs (pos + 1) (scan.set (i + pos * 4) v)

/-- The values read by a literal run of length `c`: bytes past the end of the
input read as `undefined` and are stored as `0` by the typed array. -/
def litVals (rem : List Nat) (c : Nat) : List Nat :=
  (List.range c).map (fun j => (rem.get? j).getD 0)

/-- One RLE component plane of `parseHDR`'s inner loop, for plane `i` of a
scanline of width `w`. The JS loop `while (position < width)` reads a
control byte; `> 128` is a repeat run, otherwise a literal run. A read past
the end of the input yields `undefined`, which selects a zero-length
literal run, so the loop makes no progress: this is modelled by fuel
(`none` = the loop did not terminate within `fuel` steps). Returns the
scanline, the remaining bytes and the final position. -/
def decodePlane (w i : Nat) : Nat → List Nat → List Nat → Nat → Option (List Nat × List Nat × Nat)
  | 0, _, _, _ => none
  | fuel + 1, rem, scan, pos =>
    if w ≤ pos then some (scan, rem, pos)
    else
      match rem with
      | [] => decodePlane w i fuel [] scan pos
      | c :: rest =>
        if 128 < c then
          decodePlane w i fuel rest.tail
            (writeRun i ((rest.head?).getD 0) (c - 128) pos scan) (pos + (c - 128))
        else
          decodePlane w i fuel (rest.drop c) (writeLit i (litVals rest c) pos scan) (pos + c)

/-- The reconstruction loop: for each of the remaining pixels (`x` is the
current pixel index within the scanline), read the plane bytes
`(R, G, B, E)` from the interleaved scanline and store
`R*scale, G*scale, B*scale, 1.0` with `scale = 2^(E-128)/255` at
`data[currentPixel++]` (out-of-range stores are ignored). -/
def writePixels (scan : List Nat) : Nat → Nat → List ℚ → Nat → List ℚ × Nat
  | 0, _x, data, cp => (data, cp)
  | n + 1, x, data, cp =>
    let r : Nat := (scan.get? (x * 4)).getD 0
    let g : Nat := (scan.get? (x * 4 + 1)).getD 0
    let b : Nat := (scan.get? (x * 4 + 2)).getD 0
    let e : Nat := (scan.get? (x * 4 + 3)).getD 0
    let scale : ℚ := (2 : ℚ) ^ ((e : ℤ) - 128) / 255
    let data' := ((((data.set cp ((r : ℚ) * scale)).set (cp + 1) ((g : ℚ) * scale)).set
      (cp + 2) ((b : ℚ) * scale)).set (cp + 3) 1)
    writePixels scan n (x + 1) data' (cp + 4)

/-- The scanline loop of `parseHDR`: while bytes remain, read a 4-byte
scanline descriptor `[2, 2, hi, lo]` with `hi*256+lo = width` (anything
else, including a truncated descriptor, fails `UnsupportedEncoding`), then
decode the four planes R, G, B, E and reconstruct the pixels. -/
def parseBody (w _h : Nat) : Nat → List Nat → List ℚ → Nat → Option (Except HDRError (List ℚ))
  | 0, _, _, _ => none
  | fuel + 1, rem, data, cp =>
    match rem with
    | [] => some (.ok data)
    | a :: b :: c :: d :: rest =>
      if a = 2 ∧ b = 2 ∧ c * 256 + d = w then
        match decodePlane w 0 fuel rest (List.replicate (w * 4) 0) 0 with
        | none => none
        | some (s1, r1, _) =>
          match decodePlane w 1 fuel r1 s1 0 with
          | none => none
          | some (s2, r2, _) =>
            match decodePlane w 2 fuel r2 s2 0 with
            | none => none
            | some (s3, r3, _) =>
              match decodePlane w 3 fuel r3 s3 0 with
              | none => none
              | some (s4, r4, _) =>
                let wp := writePixels s4 w 0 data cp
                parseBody w _h fuel r4 wp.1 wp.2
      else some (.error .UnsupportedEncoding)
    | _ => some (.error .UnsupportedEncoding)

/-- Model of `HDRLoader.parseHDR`: header scan, format check, resolution extraction,
then the fuelled scanline decode. `none` models nontermination. -/
def parseHDR (bytes : List Nat) (fuel : Nat) : Option (Except HDRError HDRImage) :=
  let hs := headerScan [] bytes
  let header := hs.1
  let rest := hs.2
  if ¬(containsSub header (ascii "32-bit_rle_rgbe") = true ∨
      containsSub header (ascii "32-bit_rle_xyze") = true) then
    some (.error .UnsupportedFormat)
  else
    match findResolution header with
    | none => some (.error .MissingResolution)
    | some hw =>
      let h := hw.1
      let w := hw.2
      match parseBody w h fuel rest (List.replicate (w * h * 4) 0) 0 with
      | none => none
      | some (.error e) => some (.error e)
      | some (.ok data) => some (.ok ⟨w, h, data⟩)

/-- The per-pixel scale factor used by the reconstruction loop. -/
def rgbeScale (e : Nat) : ℚ := (2 : ℚ) ^ ((e : ℤ) - 128) / 255

/-! ### HDR helper lemmas -/

theorem writePixels_fst_length (scan : List Nat) :
    ∀ (n x : Nat) (data : List ℚ) (cp : Nat),
      ((writePixels scan n x data cp).1).length = data.length := by
  intro n
  induction n with
  | zero => intro x data cp; rfl
  | succ k ih =>
    intro x data cp
    simp only [writePixels, ih, List.length_set]

theorem writePixels_get_below (scan : List Nat) :
    ∀ (n x : Nat) (data : List ℚ) (cp m : Nat), m < cp →
      ((writePixels scan n x data cp).1).get? m = data.get? m := by
  intro n
  induction n with
  | zero => intro x data cp m _; rfl
  | succ k ih =>
    intro x data cp m hm
    simp only [writePixels]
    rw [ih _ _ _ _ (by omega)]
    rw [List.get?_set_ne _ _ (by omega), List.get?_set_ne _ _ (by omega),
      List.get?_set_ne _ _ (by omega), List.get?_set_ne _ _ (by omega)]

theorem writePixels_pixel (scan : List Nat) :
    ∀ (n x : Nat) (data : List ℚ) (cp j : Nat), j < n → cp + 4 * j + 3 < data.length →
      ((writePixels scan n x data cp).1.get? (cp + 4 * j) =
        some (((scan.get? ((x + j) * 4)).getD 0 : ℚ) *
          rgbeScale ((scan.get? ((x + j) * 4 + 3)).getD 0))) ∧
      ((writePixels scan n x data cp).1.get? (cp + 4 * j + 1) =
        some (((scan.get? ((x + j) * 4 + 1)).getD 0 : ℚ) *
          rgbeScale ((scan.get? ((x + j) * 4 + 3)).getD 0))) ∧
      ((writePixels scan n x data cp).1.get? (cp + 4 * j + 2) =
        some (((scan.get? ((x + j) * 4 + 2)).getD 0 : ℚ) *
          rgbeScale ((scan.get? ((x + j) * 4 + 3)).getD 0))) ∧
      ((writePixels scan n x data cp).1.get? (cp + 4 * j + 3) = some 1) := by
  intro n
  induction n with
  | zero => intro x data cp j hj _; omega
  | succ k ih =>
    intro x data cp j hj hlen
    match j with
    | 0 =>
      simp only [writePixels, rgbeScale, Nat.mul_zero, Nat.add_zero]
      rw [writePixels_get_below scan k (x + 1) _ (cp + 4) cp (by omega),
        writePixels_get_below scan k (x + 1) _ (cp + 4) (cp + 1) (by omega),
        writePixels_get_below scan k (x + 1) _ (cp + 4) (cp + 2) (by omega),
        writePixels_get_below scan k (x + 1) _ (cp + 4) (cp + 3) (by omega)]
      refine ⟨?_, ?_, ?_, ?_⟩
      · rw [List.get?_set_ne _ _ (by omega), List.get?_set_ne _ _ (by omega),
          List.get?_set_ne _ _ (by omega),
          List.get?_set_eq_of_lt _ (by omega)]
      · rw [List.get?_set_ne _ _ (by omega), List.get?_set_ne _ _ (by omega),
          List.get?_set_eq_of_lt _ (by simp only [List.length_set]; omega)]
      · rw [List.get?_set_ne _ _ (by omega),
          List.get?_set_eq_of_lt _ (by simp only [List.length_set]; omega)]
      · rw [List.get?_set_eq_of_lt _ (by simp only [List.length_set]; omega)]
    | j' + 1 =>
      simp only [writePixels]
      have h1 : cp + 4 * (j' + 1) = (cp + 4) + 4 * j' := by omega
      have hx : x + (j' + 1) = (x + 1) + j' := by omega
      rw [h1, hx]
      exact ih (x + 1) _ (cp + 4) j' (by omega)
        (by simp only [List.length_set]; omega)

theorem parseBody_length (w h : Nat) :
    ∀ (fuel : Nat) (rem : List Nat) (data r : List ℚ) (cp : Nat),
      parseBody w h fuel rem data cp = some (.ok r) → r.length = data.length := by
  intro fuel
  induction fuel with
  | zero => intro rem data r cp hh; simp [parseBody] at hh
  | succ k ih =>
    intro rem data r cp hh
    simp only [parseBody] at hh
    repeat' split at hh
    all_goals first
      | (rw [ih _ _ _ _ hh, writePixels_fst_length])
      | (simp only [Option.some.injEq, Except.ok.injEq] at hh; subst hh; rfl)
      | exact absurd hh (by simp)

theorem decodePlane_stuck (w i : Nat) :
    ∀ (fuel : Nat) (scan : List Nat) (pos : Nat), pos < w →
      decodePlane w i fuel [] scan pos = none := by
  intro fuel
  induction fuel with
  | zero => intro scan pos _; rfl
  | succ k ih =>
    intro scan pos hp
    rw [decodePlane, if_neg (by omega)]
    exact ih scan pos hp

/-! ### HDR claim theorems -/

/-- C2: whenever `parseHDR` completes successfully, the output buffer holds
exactly `width * height * 4` values; and the reconstruction loop stores, for
the pixel whose plane bytes are `(R, G, B, E)`, the four values
`R*scale, G*scale, B*scale, 1.0` with `scale = 2^(E-128)/255`. -/
theorem hdr_output_length_and_pixel_formula :
    (∀ (bytes : List Nat) (fuel : Nat) (img : HDRImage),
        parseHDR bytes fuel = some (.ok img) →
        img.data.length = img.width * img.height * 4) ∧
    (∀ (scan : List Nat) (w : Nat) (data : List ℚ) (cp j : Nat),
        j < w → cp + 4 * j + 3 < data.length →
        ((writePixels scan w 0 data cp).1.get? (cp + 4 * j) =
          some (((scan.get? (j * 4)).getD 0 : ℚ) *
            rgbeScale ((scan.get? (j * 4 + 3)).getD 0))) ∧
        ((writePixels scan w 0 data cp).1.get? (cp + 4 * j + 1) =
          some (((scan.get? (j * 4 + 1)).getD 0 : ℚ) *
            rgbeScale ((scan.get? (j * 4 + 3)).getD 0))) ∧
        ((writePixels scan w 0 data cp).1.get? (cp + 4 * j + 2) =
          some (((scan.get? (j * 4 + 2)).getD 0 : ℚ) *
            rgbeScale ((scan.get? (j * 4 + 3)).getD 0))) ∧
        ((writePixels scan w 0 data cp).1.get? (cp + 4 * j + 3) = some 1)) := by
  constructor
  · intro bytes fuel img h
    simp only [parseHDR] at h
    split at h
    · exact absurd h (by simp)
    · split at h
      · exact absurd h (by simp)
      · split at h
        · exact absurd h (by simp)
        · exact absurd h (by simp)
        · rename_i data heq
          have hlen := parseBody_length _ _ fuel _ _ _ _ heq
          simp only [Option.some.injEq, Except.ok.injEq] at h
          subst h
          simpa using hlen
  · intro scan w data cp j hj hlen
    have hp := writePixels_pixel scan w 0 data cp j hj hlen
    simpa using hp

/-- The 2x2 constant-pixel example: header, then two scanlines, each a
4-byte descriptor plus four literal-encoded planes of the pixel
`(255, 0, 0, 128)`. -/
def hdrExampleInput : List Nat :=
  ascii "#?RADIANCE\n32-bit_rle_rgbe\n\n-Y 2 +X 2\n" ++
  ([2, 2, 0, 2] ++ [2, 255, 255] ++ [2, 0, 0] ++ [2, 0, 0] ++ [2, 128, 128]) ++
  ([2, 2, 0, 2] ++ [2, 255, 255] ++ [2, 0, 0] ++ [2, 0, 0] ++ [2, 128, 128])

def hdrExampleImage : HDRImage :=
  ⟨2, 2, [1, 0, 0, 1, 1, 0, 0, 1, 1, 0, 0, 1, 1, 0, 0, 1]⟩

theorem hdr_output_length_and_pixel_formula_witness :
    hdrExampleImage.data.length = hdrExampleImage.width * hdrExampleImage.height * 4 ∧
    ((writePixels [255, 0, 0, 128] 1 0 (List.replicate 4 0) 0).1.get? (0 + 4 * 0 + 3) =
      some 1) :=
  ⟨hdr_output_length_and_pixel_formula.1 hdrExampleInput 100 hdrExampleImage
     (by with_unfolding_all decide),
   (hdr_output_length_and_pixel_formula.2 [255, 0, 0, 128] 1 (List.replicate 4 0) 0 0
     (by decide) (by decide)).2.2.2⟩

/-- An input whose R plane holds a repeat run of length 3 on a scanline of
width 2: the run pushes the decoded position past the width. -/
def hdrOverrunInput : List Nat :=
  ascii "32-bit_rle_rgbe -Y 1 +X 2\n" ++
  [2, 2, 0, 2] ++ [131, 10] ++ [130, 0] ++ [130, 0] ++ [130, 128]

/-- C7 counterexample: a repeat run that pushes the decoded position past
`width` does NOT make decode fail — `parseHDR` accepts the input and
returns a complete image (the overlong run's out-of-range plane writes are
silently dropped). There is no `CorruptScanline` failure in the code. -/
theorem hdr_overrun_accepted :
    parseHDR hdrOverrunInput 40 =
      some (.ok ⟨2, 1, [2/51, 0, 0, 1, 2/51, 0, 0, 1]⟩) := by with_unfolding_all decide

/-- C7 (amended): the accumulated run length of a plane CAN exceed `width`:
a repeat run is copied in full (out-of-range scanline writes ignored) and
the plane loop then simply exits with final position `pos + (c - 128) > w`,
raising no error. -/
theorem decodePlane_overrun_completes (w i fuel c : Nat) (rest scan : List Nat) (pos : Nat)
    (hpos : pos < w) (hc : 128 < c) (hover : w < pos + (c - 128)) :
    decodePlane w i (fuel + 2) (c :: rest) scan pos =
      some (writeRun i ((rest.head?).getD 0) (c - 128) pos scan, rest.tail, pos + (c - 128)) := by
  have h1 : ¬ w ≤ pos := by omega
  have h2 : w ≤ pos + (c - 128) := by omega
  simp only [decodePlane, if_neg h1, if_pos hc, if_pos h2]

theorem decodePlane_overrun_completes_witness :
    0 < 2 ∧ 128 < 131 ∧ 2 < 0 + (131 - 128) ∧
    decodePlane 2 0 2 [131, 9] (List.replicate 8 0) 0 =
      some (writeRun 0 9 3 0 (List.replicate 8 0), ([] : List Nat), 3) :=
  ⟨by decide, by decide, by decide,
   decodePlane_overrun_completes 2 0 0 131 [9] (List.replicate 8 0) 0
     (by decide) (by decide) (by decide)⟩

/-- C8 counterexample: an input that contains NO header terminator of any
kind (no line-feed at all, hence in particular no blank line) is not
rejected with a truncated-header error: the whole input becomes the header
and `parseHDR` succeeds. -/
theorem hdr_no_terminator_accepted :
    parseHDR (ascii "32-bit_rle_rgbe -Y 0 +X 0") 5 = some (.ok ⟨0, 0, []⟩) := by with_unfolding_all decide

/-- C8 (amended): the header scan does not look for a blank line. It
consumes bytes one at a time and stops at the first line-feed byte at which
the accumulated header contains both `"-Y "` and `" +X "`; if no such
line-feed exists the entire input becomes the header (the remainder is
empty) and no truncated-header error is raised — decoding proceeds to the
format and resolution checks. -/
theorem headerScan_terminator (bytes : List Nat) :
    (headerScan [] bytes).1 ++ (headerScan [] bytes).2 = bytes ∧
    ((headerScan [] bytes).2 = [] ∨
      ((headerScan [] bytes).1.getLast? = some 10 ∧
       containsSub (headerScan [] bytes).1 (ascii "-Y ") = true ∧
       containsSub (headerScan [] bytes).1 (ascii " +X ") = true)) := by
  have main : ∀ (bs acc : List Nat),
      (headerScan acc bs).1 ++ (headerScan acc bs).2 = acc ++ bs ∧
      ((headerScan acc bs).2 = [] ∨
        ((headerScan acc bs).1.getLast? = some 10 ∧
         containsSub (headerScan acc bs).1 (ascii "-Y ") = true ∧
         containsSub (headerScan acc bs).1 (ascii " +X ") = true)) := by
    intro bs
    induction bs with
    | nil => intro acc; exact ⟨by simp [headerScan], Or.inl rfl⟩
    | cons b rest ih =>
      intro acc
      by_cases hcond : b = 10 ∧ containsSub (acc ++ [b]) (ascii "-Y ") = true ∧
          containsSub (acc ++ [b]) (ascii " +X ") = true
      · constructor
        · simp only [headerScan, if_pos hcond]
          simp
        · right
          simp only [headerScan, if_pos hcond]
          exact ⟨by rw [List.getLast?_concat]; rw [hcond.1], hcond.2.1, hcond.2.2⟩
      · have hrec : headerScan acc (b :: rest) = headerScan (acc ++ [b]) rest := by
          simp only [headerScan, if_neg hcond]
        rw [hrec]
        refine ⟨?_, (ih (acc ++ [b])).2⟩
        rw [(ih (acc ++ [b])).1]
        simp
  simpa using main bytes []

/-- An input with a valid header and scanline descriptor whose RLE body
ends before the first plane's data: every read past the end of the input
yields a control value that selects a zero-length literal run, so the
decoded position never advances. -/
def hdrStuckInput : List Nat :=
  ascii "32-bit_rle_rgbe -Y 1 +X 1\n" ++ [2, 2, 0, 1]

/-- C9: `parseHDR` does not terminate on `hdrStuckInput`: for EVERY fuel
bound the fuelled decoder fails to finish (it neither returns a result nor
raises an error), i.e. the JS loop runs forever — decode is not a total
function of the input bytes. -/
theorem hdr_nonterminating_input : ∀ fuel : Nat, parseHDR hdrStuckInput fuel = none := by
  intro fuel
  match fuel with
  | 0 => rfl
  | Nat.succ f =>
    have hstuck : decodePlane 1 0 f [] (List.replicate (1 * 4) 0) 0 = none :=
      decodePlane_stuck 1 0 f (List.replicate (1 * 4) 0) 0 (by omega)
    have hb : parseBody 1 1 (f + 1) [2, 2, 0, 1] (List.replicate 4 0) 0 = none := by
      simp only [parseBody]
      rw [if_pos (⟨trivial, trivial, trivial⟩ : True ∧ True ∧ True), hstuck]
    have hred : parseHDR hdrStuckInput (f + 1) =
        (match parseBody 1 1 (f + 1) [2, 2, 0, 1] (List.replicate 4 0) 0 with
         | none => none
         | some (.error e) => some (.error e)
         | some (.ok data) => some (.ok ⟨1, 1, data⟩)) := rfl
    rw [hred, hb]

/-! ## glTF loader (glTFLoader)

The glTF document is modelled as a record mirroring the glTF 2.0 subset the
loader reads. JS numbers are `Nat` (indices, sizes) or `ℚ` (matrix/vector
entries). The injected byte-fetch capability is a pair of oracle functions;
float32 decoding of raw bytes is an abstract parameter `f32` (the claims
settled here do not depend on the bit-level float format). -/

structure glTFAsset where
  version : String
  deriving DecidableEq

structure glTFBuffer where
  byteLength : Nat
  uri : String
  deriving DecidableEq

structure glTFBufferView where
  buffer : Nat
  byteOffset : Nat
  byteLength : Nat
  deriving DecidableEq

structure glTFAccessor where
  bufferView : Nat
  componentType : Nat
  count : Nat
  type : String
  deriving DecidableEq

structure glTFAttributes where
  POSITION : Nat
  TEXCOORD_0 : Nat
  NORMAL : Nat
  deriving DecidableEq

structure glTFPrimitive where
  attributes : glTFAttributes
  indices : Nat
  material : Nat
  mode : Option Nat
  deriving DecidableEq

structure glTFMesh where
  primitives : List glTFPrimitive
  deriving DecidableEq

structure glTFNode where
  mesh : Nat
  matrix : Option (List ℚ)
  scale : Option (ℚ × ℚ × ℚ)
  translation : Option (ℚ × ℚ × ℚ)
  rotation : Option (ℚ × ℚ × ℚ × ℚ)
  deriving DecidableEq

structure glTFTextureInfo where
  index : Nat
  deriving DecidableEq

structure glTFPBR where
  baseColorTexture : glTFTextureInfo
  metallicRoughnessTexture : glTFTextureInfo
  deriving DecidableEq

structure glTFMaterial where
  pbrMetallicRoughness : glTFPBR
  normalTexture : glTFTextureInfo
  emissiveFactor : ℚ × ℚ × ℚ
  emissiveTexture : glTFTextureInfo
  occlusionTexture : glTFTextureInfo
  deriving DecidableEq

structure glTFTexture where
  source : Nat
  deriving DecidableEq

structure glTFImage where
  uri : String
  deriving DecidableEq

structure glTF where
  asset : glTFAsset
  buffers : List glTFBuffer
  bufferViews : List glTFBufferView
  accessors : List glTFAccessor
  meshes : List glTFMesh
  nodes : List glTFNode
  materials : List glTFMaterial
  textures : List glTFTexture
  images : List glTFImage
  deriving DecidableEq

/-- The `ComponentType` lookup object (JS property access yields `undefined`,
modelled as `none`, for keys that are not present). -/
def componentTypeMap : Nat → Option String
  | 5120 => some "sint8"
  | 5121 => some "uint8"
  | 5122 => some "sint16"
  | 5123 => some "uint16"
  | 5125 => some "uint32"
  | 5126 => some "float32"
  | _ => none

/-- The `ComponentCount` lookup object. -/
def componentCountMap (s : String) : Option String :=
  if s = "SCALAR" then some ""
  else if s = "VEC2" then some "x2"
  else if s = "VEC3" then some "x3"
  else if s = "VEC4" then some "x4"
  else if s = "MAT2" then some "x8"
  else if s = "MAT3" then some "x12"
  else if s = "MAT4" then some "x16"
  else none

/-- The string `ComponentType[accessor.componentType] + ComponentCount[accessor.type]`:
JS string concatenation, where a missing key contributes `"undefined"`. -/
def typeString (a : glTFAccessor) : String :=
  (componentTypeMap a.componentType).getD "undefined" ++
    (componentCountMap a.type).getD "undefined"

/-- Model of `calculateByteLength` from utils.ts; the argument is optional in the
source (`none` models a call with no argument). -/
def calculateByteLength (t : Option String) : Nat :=
  match t with
  | some "float32" => 4
  | some "float32x2" => 8
  | some "float32x3" => 12
  | some "float32x4" => 16
  | _ => 0

/-! ### wgpu-matrix operations (external utility, column-major storage,
column vectors; `mat4.scale`/`mat4.translate` post-multiply in place) -/

abbrev M4 := Matrix (Fin 4) (Fin 4) ℚ

/-- Model of `mat4.identity()`. -/
def mat4identity : M4 := Matrix.of fun r c => if r = c then 1 else 0

/-- Model of `mat4.create(...values)`: the 16 values are stored verbatim in
column-major flat order, entry (r, c) = flat[c*4+r]. -/
def mat4create (l : List ℚ) : M4 :=
  Matrix.of fun r c => (l.get? (c.val * 4 + r.val)).getD 0

/-- Model of `mat4.scale(m, v)`: scales column j of m by v[j] for j < 3. -/
def mat4scale (m : M4) (v : ℚ × ℚ × ℚ) : M4 :=
  Matrix.of fun r c =>
    if c = 0 then v.1 * m r 0
    else if c = 1 then v.2.1 * m r 1
    else if c = 2 then v.2.2 * m r 2
    else m r 3

/-- Model of `mat4.translate(m, v)`: replaces column 3 by m·(v, 1). -/
def mat4translate (m : M4) (v : ℚ × ℚ × ℚ) : M4 :=
  Matrix.of fun r c =>
    if c = 3 then m r 0 * v.1 + m r 1 * v.2.1 + m r 2 * v.2.2 + m r 3
    else m r c

/-- Model of `mat4.mul(a, b)` (a on the left). -/
def mat4mul (a b : M4) : M4 :=
  Matrix.of fun r c => a r 0 * b 0 c + a r 1 * b 1 c + a r 2 * b 2 c + a r 3 * b 3 c

/-- Model of `mat4.fromQuat(q)` for `q = quat.fromValues(x, y, z, w)`. -/
def mat4fromQuat (q : ℚ × ℚ × ℚ × ℚ) : M4 :=
  let x := q.1
  let y := q.2.1
  let z := q.2.2.1
  let w := q.2.2.2
  Matrix.of fun r c =>
    if c = 0 then
      (if r = 0 then 1 - y * (y + y) - z * (z + z)
       else if r = 1 then y * (x + x) + w * (z + z)
       else if r = 2 then z * (x + x) - w * (y + y)
       else 0)
    else if c = 1 then
      (if r = 0 then y * (x + x) - w * (z + z)
       else if r = 1 then 1 - x * (x + x) - z * (z + z)
       else if r = 2 then z * (y + y) + w * (x + x)
       else 0)
    else if c = 2 then
      (if r = 0 then z * (x + x) + w * (y + y)
       else if r = 1 then z * (y + y) - w * (x + x)
       else if r = 2 then 1 - x * (x + x) - y * (y + y)
       else 0)
    else
      (if r = 3 then 1 else 0)

/-- The model-matrix computation of `generateGeometries`: `node.matrix`
verbatim when present, else identity, then `mat4.scale`, `mat4.translate`,
and multiplication by `mat4.fromQuat` — each applied only when the
corresponding field is present. -/
def computeModel (n : glTFNode) : M4 :=
  match n.matrix with
  | some l => mat4create l
  | none =>
    let m0 := mat4identity
    let m1 := match n.scale with
      | some v => mat4scale m0 v
      | none => m0
    let m2 := match n.translation with
      | some v => mat4translate m1 v
      | none => m1
    match n.rotation with
    | some q => mat4mul m2 (mat4fromQuat q)
    | none => m2

/-! ### Loader pipeline -/

inductive LoadError where
  | FetchFailed
  | SizeMismatch
  | UnsupportedVersion
  | RefError
  | RangeError
  deriving DecidableEq

structure Layout where
  format : String
  offset : Nat
  deriving DecidableEq

/-- The index typed array built by the loader, recording the element width
of the constructed view (in bits) together with the decoded elements. -/
structure IndexArray where
  bitWidth : Nat
  values : List Nat
  deriving DecidableEq

structure GeometryTextures where
  baseColorURI : String
  metallicRoughnessURI : String
  normalURI : String
  emissive : ℚ × ℚ × ℚ
  emissiveURI : String
  occlusionURI : String
  deriving DecidableEq

/-- A wgpu-matrix `Mat4` value is a flat array of 16 floats in column-major
order; this is the representation stored in a `Geometry`. -/
def m4flat (m : M4) : List ℚ :=
  [m 0 0, m 1 0, m 2 0, m 3 0, m 0 1, m 1 1, m 2 1, m 3 1,
   m 0 2, m 1 2, m 2 2, m 3 2, m 0 3, m 1 3, m 2 3, m 3 3]

structure Geometry where
  model : List ℚ
  vertices : List ℚ
  arrayStride : Nat
  position : Layout
  normal : Layout
  texCoord : Layout
  indices : IndexArray
  textures : GeometryTextures
  deriving DecidableEq

/-- JS array indexing: an out-of-range index yields `undefined`, and every
use of such a value in the loader immediately faults (property access on
`undefined`), which rejects the whole load. -/
def lookupRef {α : Type} (l : List α) (i : Nat) : Except LoadError α :=
  match l.get? i with
  | some x => .ok x
  | none => .error .RefError

/-- Model of `new Float32Array(buffer, byteOffset, len)`: requires 4-byte alignment
and the view to lie inside the buffer (else JS raises a RangeError). The
element at j is the float decoded from the 4 bytes at byteOffset+4j by the
abstract decoder `f32`. -/
def f32View (f32 : List Nat → ℚ) (buf : List Nat) (byteOffset len : Nat) :
    Except LoadError (List ℚ) :=
  if byteOffset % 4 = 0 ∧ byteOffset + 4 * len ≤ buf.length then
    .ok ((List.range len).map fun j => f32 ((buf.drop (byteOffset + 4 * j)).take 4))
  else .error .RangeError

/-- Model of `new Uint16Array(buffer, byteOffset, len)`: 2-byte alignment and bounds
check, little-endian 16-bit elements. -/
def u16View (buf : List Nat) (byteOffset len : Nat) : Except LoadError (List Nat) :=
  if byteOffset % 2 = 0 ∧ byteOffset + 2 * len ≤ buf.length then
    .ok ((List.range len).map fun j =>
      (buf.get? (byteOffset + 2 * j)).getD 0 + 256 * ((buf.get? (byteOffset + 2 * j + 1)).getD 0))
  else .error .RangeError

/-- Model of `TypedArray.prototype.set(values, off)`: it writes the values at off,
off+1, …; it raises a RangeError when the run does not fit. -/
def setValsAux : List ℚ → Nat → List ℚ → List ℚ
  | arr, _, [] => arr
  | arr, off, v :: vs => setValsAux (arr.set off v) (off + 1) vs

def typedSet (arr : List ℚ) (vals : List ℚ) (off : Nat) : Except LoadError (List ℚ) :=
  if off + vals.length ≤ arr.length then .ok (setValsAux arr off vals)
  else .error .RangeError

/-- The interleave loop of `generateGeometries`: for each vertex i it writes
3 position floats at lane `stride*i`, 2 texture-coordinate floats at lane
`stride*i + 3` and 3 normal floats at lane `stride*i + 5`, with the
hardcoded `stride = 8`, reading each source view sequentially through the
running offsets pOff/tOff/nOff. -/
def interleaveLoop (posB texB norB : List ℚ) :
    Nat → Nat → Nat → Nat → Nat → List ℚ → Except LoadError (List ℚ)
  | 0, _i, _pOff, _tOff, _nOff, arr => .ok arr
  | k + 1, i, pOff, tOff, nOff, arr =>
    match typedSet arr [(posB.get? pOff).getD 0, (posB.get? (pOff + 1)).getD 0,
        (posB.get? (pOff + 2)).getD 0] (8 * i) with
    | .error e => .error e
    | .ok arr1 =>
      match typedSet arr1 [(texB.get? tOff).getD 0, (texB.get? (tOff + 1)).getD 0]
          (8 * i + 3) with
      | .error e => .error e
      | .ok arr2 =>
        match typedSet arr2 [(norB.get? nOff).getD 0, (norB.get? (nOff + 1)).getD 0,
            (norB.get? (nOff + 2)).getD 0] (8 * i + 5) with
        | .error e => .error e
        | .ok arr3 =>
          interleaveLoop posB texB norB k (i + 1) (pOff + 3) (tOff + 2) (nOff + 3) arr3

/-- Resolution of the `indices` accessor: the loader always constructs a
`Uint16Array` over the index buffer view, with `byteLength / 2` elements,
regardless of the accessor's declared component type. -/
def resolveIndices (g : glTF) (buffers : List (List Nat)) (p : glTFPrimitive) :
    Except LoadError IndexArray :=
  match lookupRef g.accessors p.indices with
  | .error e => .error e
  | .ok idxAcc =>
    match lookupRef g.bufferViews idxAcc.bufferView with
    | .error e => .error e
    | .ok idxBV =>
      match lookupRef buffers idxBV.buffer with
      | .error e => .error e
      | .ok idxBuf =>
        match u16View idxBuf idxBV.byteOffset (idxBV.byteLength / 2) with
        | .error e => .error e
        | .ok idxVals => .ok { bitWidth := 16, values := idxVals }

/-- Per-primitive body of `generateGeometries`. Returns `none` for a skipped
primitive (`mode` present and ≠ 4). -/
def processPrimitive (f32 : List Nat → ℚ) (path : String) (g : glTF)
    (buffers : List (List Nat)) (model : List ℚ) (p : glTFPrimitive) :
    Except LoadError (Option Geometry) :=
  if (match p.mode with | some m => decide (m ≠ 4) | none => false) then .ok none
  else do
    let posAcc ← lookupRef g.accessors p.attributes.POSITION
    let positionType := typeString posAcc
    let positionOffset := calculateByteLength none
    let posBV ← lookupRef g.bufferViews posAcc.bufferView
    let posBuf ← lookupRef buffers posBV.buffer
    let posView ← f32View f32 posBuf posBV.byteOffset (posBV.byteLength / 4)
    let texAcc ← lookupRef g.accessors p.attributes.TEXCOORD_0
    let texCoordType := typeString texAcc
    let texCoordOffset := calculateByteLength (some positionType)
    let texBV ← lookupRef g.bufferViews texAcc.bufferView
    let texBuf ← lookupRef buffers texBV.buffer
    let texView ← f32View f32 texBuf texBV.byteOffset (texBV.byteLength / 4)
    let norAcc ← lookupRef g.accessors p.attributes.NORMAL
    let normalType := typeString norAcc
    let normalOffset := calculateByteLength (some positionType) +
      calculateByteLength (some texCoordType)
    let norBV ← lookupRef g.bufferViews norAcc.bufferView
    let norBuf ← lookupRef buffers norBV.buffer
    let norView ← f32View f32 norBuf norBV.byteOffset (norBV.byteLength / 4)
    let arrayStride := calculateByteLength (some positionType) +
      calculateByteLength (some texCoordType) + calculateByteLength (some normalType)
    let vertices ← interleaveLoop posView texView norView posAcc.count 0 0 0 0
      (List.replicate (posAcc.count * arrayStride / 4) 0)
    let indices ← resolveIndices g buffers p
    let material ← lookupRef g.materials p.material
    let bcTex ← lookupRef g.textures material.pbrMetallicRoughness.baseColorTexture.index
    let bcImg ← lookupRef g.images bcTex.source
    let mrTex ← lookupRef g.textures material.pbrMetallicRoughness.metallicRoughnessTexture.index
    let mrImg ← lookupRef g.images mrTex.source
    let nTex ← lookupRef g.textures material.normalTexture.index
    let nImg ← lookupRef g.images nTex.source
    let eTex ← lookupRef g.textures material.emissiveTexture.index
    let eImg ← lookupRef g.images eTex.source
    let oTex ← lookupRef g.textures material.occlusionTexture.index
    let oImg ← lookupRef g.images oTex.source
    return some {
      model := model
      vertices := vertices
      arrayStride := arrayStride
      position := { format := positionType, offset := positionOffset }
      normal := { format := normalType, offset := normalOffset }
      texCoord := { format := texCoordType, offset := texCoordOffset }
      indices := indices
      textures := {
        baseColorURI := path ++ bcImg.uri
        metallicRoughnessURI := path ++ mrImg.uri
        normalURI := path ++ nImg.uri
        emissive := material.emissiveFactor
        emissiveURI := path ++ eImg.uri
        occlusionURI := path ++ oImg.uri } }

/-- The fold over a node's primitives: every qualifying primitive assigns
`geometries[index]` for the node's index, so the slot ends up holding the
last qualifying primitive's geometry (or stays empty). -/
def processPrimList (f32 : List Nat → ℚ) (path : String) (g : glTF)
    (buffers : List (List Nat)) (model : List ℚ) :
    List glTFPrimitive → Option Geometry → Except LoadError (Option Geometry)
  | [], acc => .ok acc
  | p :: rest, acc =>
    match processPrimitive f32 path g buffers model p with
    | .error e => .error e
    | .ok none => processPrimList f32 path g buffers model rest acc
    | .ok (some geo) => processPrimList f32 path g buffers model rest (some geo)

/-- One node of `generateGeometries`: compute the model matrix, look up the
node's mesh, process its primitives into the node's slot. -/
def processNode (f32 : List Nat → ℚ) (path : String) (g : glTF)
    (buffers : List (List Nat)) (n : glTFNode) : Except LoadError (Option Geometry) :=
  let model := m4flat (computeModel n)
  match g.meshes.get? n.mesh with
  | none => .error .RefError
  | some mesh => processPrimList f32 path g buffers model mesh.primitives none

def processNodes (f32 : List Nat → ℚ) (path : String) (g : glTF)
    (buffers : List (List Nat)) : List glTFNode → Except LoadError (List (Option Geometry))
  | [] => .ok []
  | n :: rest =>
    match processNode f32 path g buffers n with
    | .error e => .error e
    | .ok slot =>
      match processNodes f32 path g buffers rest with
      | .error e => .error e
      | .ok slots => .ok (slot :: slots)

/-- Model of `generateGeometries`: the geometry array has one slot per node
(`new Array(nodes.length)`), filled by iterating the nodes in order. -/
def generateGeometries (f32 : List Nat → ℚ) (path : String) (g : glTF)
    (buffers : List (List Nat)) : Except LoadError (List (Option Geometry)) :=
  processNodes f32 path g buffers g.nodes

/-- Model of `url.slice(0, url.lastIndexOf("/") + 1)`. -/
def pathnameOf (url : String) : String :=
  String.mk (((url.toList.reverse).dropWhile (fun ch => ch ≠ '/')).reverse)

/-- Model of `loadBinBuffer`: fetch the buffer's URI relative to the document path;
a failed fetch rejects, a fetched length different from the declared
`byteLength` throws a size-mismatch error. -/
def loadBinBuffer (fetchBin : String → Option (List Nat)) (path : String)
    (b : glTFBuffer) : Except LoadError (List Nat) :=
  match fetchBin (path ++ b.uri) with
  | none => .error .FetchFailed
  | some bytes => if bytes.length ≠ b.byteLength then .error .SizeMismatch else .ok bytes

/-- Model of `loadBinBuffers` (`Promise.all` over the declared buffers): an
all-or-nothing join — any failing element rejects the whole, and no partial
buffer set is kept. -/
def loadBinBuffers (fetchBin : String → Option (List Nat)) (path : String) :
    List glTFBuffer → Except LoadError (List (List Nat))
  | [] => .ok []
  | b :: rest =>
    match loadBinBuffer fetchBin path b with
    | .error e => .error e
    | .ok bytes =>
      match loadBinBuffers fetchBin path rest with
      | .error e => .error e
      | .ok more => .ok (bytes :: more)

/-- Model of `glTFLoader.load(url)`: fetch and parse the JSON (oracle `fetchJSON`),
require `asset.version == "2.0"` BEFORE fetching any buffer, then fetch all
buffers and generate the geometries. The second component is the list of
buffer URLs for which a fetch call was issued. -/
def load (f32 : List Nat → ℚ) (fetchJSON : String → Option glTF)
    (fetchBin : String → Option (List Nat)) (url : String) :
    Except LoadError (List (Option Geometry)) × List String :=
  let path := pathnameOf url
  match fetchJSON url with
  | none => (.error .FetchFailed, [])
  | some g =>
    if g.asset.version ≠ "2.0" then (.error .UnsupportedVersion, [])
    else
      let trace := g.buffers.map (fun b => path ++ b.uri)
      match loadBinBuffers fetchBin path g.buffers with
      | .error e => (.error e, trace)
      | .ok buffers => (generateGeometries f32 path g buffers, trace)

/-- A primitive qualifies for geometry generation when its `mode` is absent
or equals 4 (triangle list). -/
def qualifiesTriangleList (p : glTFPrimitive) : Bool :=
  match p.mode with
  | some m => m = 4
  | none => true

/-- Number of qualifying primitives across the document's nodes, in node
traversal order. -/
def qualifyingCount (g : glTF) : Nat :=
  (g.nodes.map (fun n =>
    match g.meshes.get? n.mesh with
    | some mesh => (mesh.primitives.filter qualifiesTriangleList).length
    | none => 0)).sum

/-- Count of filled geometry slots. -/
def countSome {α : Type} : List (Option α) → Nat
  | [] => 0
  | none :: rest => countSome rest
  | some _ :: rest => 1 + countSome rest

/-! ### Example documents -/

/-- A triangle-list primitive without explicit `mode`. -/
def exPrim : glTFPrimitive :=
  { attributes := { POSITION := 0, TEXCOORD_0 := 1, NORMAL := 2 },
    indices := 3, material := 0, mode := none }

/-- float32 VEC3 position, VEC2 texture coordinates, VEC3 normal, uint16
scalar indices, all of count 3, packed into a single 102-byte buffer. -/
def exAccessors : List glTFAccessor :=
  [ { bufferView := 0, componentType := 5126, count := 3, type := "VEC3" },
    { bufferView := 1, componentType := 5126, count := 3, type := "VEC2" },
    { bufferView := 2, componentType := 5126, count := 3, type := "VEC3" },
    { bufferView := 3, componentType := 5123, count := 3, type := "SCALAR" } ]

/-- Same accessors but with a uint32 (5125) indices accessor. -/
def exAccessorsU32 : List glTFAccessor :=
  [ { bufferView := 0, componentType := 5126, count := 3, type := "VEC3" },
    { bufferView := 1, componentType := 5126, count := 3, type := "VEC2" },
    { bufferView := 2, componentType := 5126, count := 3, type := "VEC3" },
    { bufferView := 3, componentType := 5125, count := 3, type := "SCALAR" } ]

def exBufferViews : List glTFBufferView :=
  [ { buffer := 0, byteOffset := 0, byteLength := 36 },
    { buffer := 0, byteOffset := 36, byteLength := 24 },
    { buffer := 0, byteOffset := 60, byteLength := 36 },
    { buffer := 0, byteOffset := 96, byteLength := 6 } ]

def exMaterial : glTFMaterial :=
  { pbrMetallicRoughness := { baseColorTexture := ⟨0⟩, metallicRoughnessTexture := ⟨0⟩ },
    normalTexture := ⟨0⟩, emissiveFactor := (0, 0, 0),
    emissiveTexture := ⟨0⟩, occlusionTexture := ⟨0⟩ }

def exNode : glTFNode :=
  { mesh := 0, matrix := none, scale := none, translation := none, rotation := none }

/-- A minimal accepted document holding one node, one mesh with the given
primitives, and a single inline buffer. -/
def mkDoc (prims : List glTFPrimitive) (accs : List glTFAccessor) : glTF :=
  { asset := { version := "2.0" },
    buffers := [ { byteLength := 102, uri := "scene.bin" } ],
    bufferViews := exBufferViews,
    accessors := accs,
    meshes := [ { primitives := prims } ],
    nodes := [ exNode ],
    materials := [ exMaterial ],
    textures := [ ⟨0⟩ ],
    images := [ ⟨"img.png"⟩ ] }

def exDoc1 : glTF := mkDoc [exPrim] exAccessors

def exDoc2 : glTF := mkDoc [exPrim, exPrim] exAccessors

def exDocU32 : glTF := mkDoc [exPrim] exAccessorsU32

def exDocV1 : glTF :=
  { exDoc1 with asset := { version := "1.0" } }

def exBytes : List Nat := List.replicate 102 0

/-- A fixed float32 decoder for concrete runs (the claims settled here do
not depend on the decoded float values). -/
def f0 : List Nat → ℚ := fun _ => 0

/-- The geometry produced for `exDoc1` under the `f0` decoder. -/
def exGeometry : Geometry :=
  { model := m4flat mat4identity,
    vertices := List.replicate 24 0,
    arrayStride := 32,
    position := { format := "float32x3", offset := 0 },
    normal := { format := "float32x3", offset := 20 },
    texCoord := { format := "float32x2", offset := 12 },
    indices := { bitWidth := 16, values := [0, 0, 0] },
    textures :=
      { baseColorURI := "m/img.png",
        metallicRoughnessURI := "m/img.png",
        normalURI := "m/img.png",
        emissive := (0, 0, 0),
        emissiveURI := "m/img.png",
        occlusionURI := "m/img.png" } }

/-! ### glTF helper lemmas -/

theorem processNodes_length (f32 : List Nat → ℚ) (path : String) (g : glTF)
    (buffers : List (List Nat)) :
    ∀ (ns : List glTFNode) (gs : List (Option Geometry)),
      processNodes f32 path g buffers ns = .ok gs → gs.length = ns.length := by
  intro ns
  induction ns with
  | nil =>
    intro gs h
    simp only [processNodes, Except.ok.injEq] at h
    rw [← h]
    rfl
  | cons n rest ih =>
    intro gs h
    simp only [processNodes] at h
    split at h
    · exact absurd h (by simp)
    · split at h
      · exact absurd h (by simp)
      · rename_i slots heq
        simp only [Except.ok.injEq] at h
        rw [← h]
        simp [ih slots heq]

/-! ### glTF claim theorems -/

set_option maxRecDepth 4000 in
/-- C1 counterexample: a document with one node whose mesh has TWO
qualifying triangle primitives yields only ONE geometry record (the
geometry array has one slot per node and the second primitive overwrites
the first), so the loader does not emit one record per qualifying
primitive. -/
theorem one_node_two_primitives_one_geometry :
    (generateGeometries f0 "m/" exDoc2 [exBytes]).toOption.map countSome = some 1 ∧
    qualifyingCount exDoc2 = 2 := by
  constructor
  · decide
  · decide

/-- C1 (amended): the loader allocates one geometry slot per NODE (the
result list has `nodes.length` entries); within a node every qualifying
primitive writes the same slot, which therefore keeps the LAST qualifying
primitive's geometry. For a minimal document with one node, one mesh, one
triangle primitive and an inline buffer, exactly one geometry results; its
vertex count equals the POSITION accessor's count (24 floats / 8 lanes = 3)
and its index array length is the indices bufferView's byteLength / 2,
which equals the indices accessor's count for a uint16 accessor. -/
theorem geometry_slots_per_node :
    (∀ (f32 : List Nat → ℚ) (path : String) (g : glTF) (buffers : List (List Nat))
        (gs : List (Option Geometry)),
        generateGeometries f32 path g buffers = .ok gs → gs.length = g.nodes.length) ∧
    ((generateGeometries f0 "m/" exDoc1 [exBytes]).toOption.map countSome = some 1 ∧
     (generateGeometries f0 "m/" exDoc1 [exBytes]).toOption.map (fun gs =>
        gs.map (Option.map (fun geo =>
          (geo.vertices.length, geo.arrayStride, geo.indices.values.length)))) =
       some [some (24, 32, 3)]) := by
  refine ⟨?_, by set_option maxRecDepth 4000 in decide,
    by set_option maxRecDepth 4000 in decide⟩
  intro f32 path g buffers gs h
  exact processNodes_length f32 path g buffers g.nodes gs h

set_option maxRecDepth 4000 in
theorem geometry_slots_per_node_witness :
    ([some exGeometry] : List (Option Geometry)).length = exDoc1.nodes.length :=
  geometry_slots_per_node.1 f0 "m/" exDoc1 [exBytes] [some exGeometry]
    (by decide)

/-- C4: when the parsed document's `asset.version` differs from "2.0",
`load` fails with `UnsupportedVersion` and the list of issued buffer
fetch calls is empty. -/
theorem load_version_mismatch_no_fetch (f32 : List Nat → ℚ)
    (fetchJSON : String → Option glTF) (fetchBin : String → Option (List Nat))
    (url : String) (g : glTF)
    (hj : fetchJSON url = some g) (hv : g.asset.version ≠ "2.0") :
    load f32 fetchJSON fetchBin url = (.error .UnsupportedVersion, []) := by
  simp only [load, hj]
  rw [if_pos hv]

theorem load_version_mismatch_no_fetch_witness :
    load f0 (fun _ => some exDocV1) (fun _ => some exBytes) "assets/scene.gltf" =
      (.error .UnsupportedVersion, []) :=
  load_version_mismatch_no_fetch f0 _ _ _ exDocV1 rfl (by decide)

/-- C6 counterexample: for a primitive whose indices accessor declares
componentType 5125 (uint32), the loader still builds a 16-bit index array
(bit width 16, not 32): the resolved element type does NOT match the
accessor's declared component type. -/
theorem uint32_indices_resolved_as_uint16 :
    (exDocU32.accessors.get? exPrim.indices).map glTFAccessor.componentType = some 5125 ∧
    (resolveIndices exDocU32 [exBytes] exPrim).toOption.map IndexArray.bitWidth ≠ some 32 ∧
    (resolveIndices exDocU32 [exBytes] exPrim).toOption.map IndexArray.bitWidth = some 16 := by
  refine ⟨by decide, by decide, by decide⟩

/-- C6 (amended): the loader ALWAYS resolves the indices accessor into a
Uint16Array view, regardless of the accessor's declared componentType: the
constructed index array has element width 16 bits and
`bufferView.byteLength / 2` elements. -/
theorem indices_always_uint16 (g : glTF) (buffers : List (List Nat)) (p : glTFPrimitive)
    (ia : IndexArray) (acc : glTFAccessor) (bv : glTFBufferView)
    (hres : resolveIndices g buffers p = .ok ia)
    (hacc : g.accessors.get? p.indices = some acc)
    (hbv : g.bufferViews.get? acc.bufferView = some bv) :
    ia.bitWidth = 16 ∧ ia.values.length = bv.byteLength / 2 := by
  simp only [resolveIndices, lookupRef, hacc, hbv] at hres
  rcases hbuf : buffers.get? bv.buffer with _ | buf
  · rw [hbuf] at hres
    exact absurd hres (by simp)
  · rw [hbuf] at hres
    split at hres
    · exact absurd hres (by simp)
    · rename_i idxVals heq
      simp only [Except.ok.injEq] at heq
      subst heq
      split at hres
      · exact absurd hres (by simp)
      · rename_i vals heq2
        simp only [Except.ok.injEq] at hres
        simp only [u16View] at heq2
        split at heq2
        · simp only [Except.ok.injEq] at heq2
          rw [← hres, ← heq2]
          simp
        · exact absurd heq2 (by simp)

theorem indices_always_uint16_witness :
    (({ bitWidth := 16, values := [0, 0, 0] } : IndexArray).bitWidth = 16 ∧
     ({ bitWidth := 16, values := [0, 0, 0] } : IndexArray).values.length = 6 / 2) :=
  indices_always_uint16 exDocU32 [exBytes] exPrim
    { bitWidth := 16, values := [0, 0, 0] }
    { bufferView := 3, componentType := 5125, count := 3, type := "SCALAR" }
    { buffer := 0, byteOffset := 96, byteLength := 6 }
    (by set_option maxRecDepth 4000 in decide) (by decide) (by decide)

theorem loadBinBuffers_error_of_any (fetchBin : String → Option (List Nat)) (path : String) :
    ∀ (bs : List glTFBuffer),
      (∃ b ∈ bs, fetchBin (path ++ b.uri) = none ∨
        ∃ bytes, fetchBin (path ++ b.uri) = some bytes ∧ bytes.length ≠ b.byteLength) →
      ∃ e, loadBinBuffers fetchBin path bs = .error e := by
  intro bs
  induction bs with
  | nil => intro h; simp at h
  | cons b rest ih =>
    intro h
    rcases h with ⟨b', hb', hfail⟩
    rcases List.mem_cons.mp hb' with rfl | hmem
    · rcases hfail with hnone | ⟨bytes, hsome, hlen⟩
      · exact ⟨.FetchFailed, by simp only [loadBinBuffers, loadBinBuffer, hnone]⟩
      · refine ⟨.SizeMismatch, ?_⟩
        simp only [loadBinBuffers, loadBinBuffer, hsome]
        rw [if_pos hlen]
    · cases hh : loadBinBuffer fetchBin path b with
      | error e => exact ⟨e, by simp only [loadBinBuffers, hh]⟩
      | ok bytes =>
        rcases ih ⟨_, hmem, hfail⟩ with ⟨e, he⟩
        exact ⟨e, by simp only [loadBinBuffers, hh, he]⟩

theorem loadBinBuffers_size_mismatch (fetchBin : String → Option (List Nat)) (path : String) :
    ∀ (bs : List glTFBuffer),
      (∀ b ∈ bs, ∃ bytes, fetchBin (path ++ b.uri) = some bytes) →
      (∃ b ∈ bs, ∃ bytes, fetchBin (path ++ b.uri) = some bytes ∧
        bytes.length ≠ b.byteLength) →
      loadBinBuffers fetchBin path bs = .error .SizeMismatch := by
  intro bs
  induction bs with
  | nil => intro _ h; simp at h
  | cons b rest ih =>
    intro hall hex
    by_cases hb : ∃ bytes, fetchBin (path ++ b.uri) = some bytes ∧
        bytes.length ≠ b.byteLength
    · rcases hb with ⟨bytes, hsome, hlen⟩
      simp only [loadBinBuffers, loadBinBuffer, hsome]
      rw [if_pos hlen]
    · rcases hall b (by simp) with ⟨bytes, hsome⟩
      have hlen : ¬ bytes.length ≠ b.byteLength := fun hne => hb ⟨bytes, hsome, hne⟩
      have hex' : ∃ b' ∈ rest, ∃ bytes, fetchBin (path ++ b'.uri) = some bytes ∧
          bytes.length ≠ b'.byteLength := by
        rcases hex with ⟨b', hb', hw⟩
        rcases List.mem_cons.mp hb' with rfl | hmem
        · exact absurd hw hb
        · exact ⟨b', hmem, hw⟩
      have hrest := ih (fun b' hm => hall b' (List.mem_cons_of_mem _ hm)) hex'
      simp only [loadBinBuffers, loadBinBuffer, hsome]
      rw [if_neg hlen]
      simp only [hrest]

/-- C3: under a version-2.0 document, if any declared buffer's fetch fails
or returns a byte count different from the declared `byteLength`, `load`
fails (the result is an error carrying no geometry list at all), and in the
length-mismatch case — all fetches succeeding — the error is
`SizeMismatch`. -/
theorem load_buffer_failure_aborts (f32 : List Nat → ℚ)
    (fetchJSON : String → Option glTF) (fetchBin : String → Option (List Nat))
    (url : String) (g : glTF)
    (hj : fetchJSON url = some g) (hv : g.asset.version = "2.0") :
    ((∃ b ∈ g.buffers, fetchBin (pathnameOf url ++ b.uri) = none ∨
        ∃ bytes, fetchBin (pathnameOf url ++ b.uri) = some bytes ∧
          bytes.length ≠ b.byteLength) →
      ∃ e, (load f32 fetchJSON fetchBin url).1 = .error e) ∧
    ((∀ b ∈ g.buffers, ∃ bytes, fetchBin (pathnameOf url ++ b.uri) = some bytes) →
     (∃ b ∈ g.buffers, ∃ bytes, fetchBin (pathnameOf url ++ b.uri) = some bytes ∧
        bytes.length ≠ b.byteLength) →
      (load f32 fetchJSON fetchBin url).1 = .error .SizeMismatch) := by
  constructor
  · intro hex
    rcases loadBinBuffers_error_of_any fetchBin (pathnameOf url) g.buffers hex with ⟨e, he⟩
    refine ⟨e, ?_⟩
    simp only [load, hj]
    rw [if_neg (by simp [hv])]
    simp [he]
  · intro hall hex
    have he := loadBinBuffers_size_mismatch fetchBin (pathnameOf url) g.buffers hall hex
    simp only [load, hj]
    rw [if_neg (by simp [hv])]
    simp [he]

theorem load_buffer_failure_aborts_witness :
    (load f0 (fun _ => some exDoc1) (fun _ => some (List.replicate 50 0))
        "assets/scene.gltf").1 = .error .SizeMismatch :=
  (load_buffer_failure_aborts f0 (fun _ => some exDoc1)
      (fun _ => some (List.replicate 50 0)) "assets/scene.gltf" exDoc1 rfl rfl).2
    (fun _ _ => ⟨List.replicate 50 0, rfl⟩)
    ⟨{ byteLength := 102, uri := "scene.bin" }, by decide,
      List.replicate 50 0, rfl, by decide⟩

/-! ### Node transform composition (C5) -/

/-- The scale matrix diag(v, 1). -/
def scaleMat (v : ℚ × ℚ × ℚ) : M4 :=
  Matrix.of fun r c =>
    if r = c then
      (if r = 0 then v.1 else if r = 1 then v.2.1 else if r = 2 then v.2.2 else 1)
    else 0

/-- The translation matrix with last column (v, 1). -/
def translateMat (v : ℚ × ℚ × ℚ) : M4 :=
  Matrix.of fun r c =>
    if r = c then 1
    else if c = 3 then (if r = 0 then v.1 else if r = 1 then v.2.1 else v.2.2)
    else 0

theorem mat4scale_eq_mul (m : M4) (v : ℚ × ℚ × ℚ) :
    mat4scale m v = m * scaleMat v := by
  ext r c
  rw [Matrix.mul_apply]
  fin_cases c <;>
    simp [mat4scale, scaleMat, Fin.sum_univ_four, Matrix.of_apply, mul_comm]

theorem mat4translate_eq_mul (m : M4) (v : ℚ × ℚ × ℚ) :
    mat4translate m v = m * translateMat v := by
  ext r c
  rw [Matrix.mul_apply]
  fin_cases c <;>
    simp [mat4translate, translateMat, Fin.sum_univ_four, Matrix.of_apply, mul_comm]

theorem mat4mul_eq_mul (a b : M4) : mat4mul a b = a * b := by
  ext r c
  rw [Matrix.mul_apply]
  simp [mat4mul, Fin.sum_univ_four, Matrix.of_apply]

/-- C5: for a node with an explicit matrix the computed model matrix is that
matrix verbatim; otherwise (with all three TRS fields present) it is the
product `identity · scale · translate · rotate(quaternion)` in that fixed
order — the scale matrix multiplied first and the quaternion rotation
matrix multiplied last. -/
theorem model_matrix_composition :
    (∀ (n : glTFNode) (l : List ℚ), n.matrix = some l → computeModel n = mat4create l) ∧
    (∀ (n : glTFNode) (s t : ℚ × ℚ × ℚ) (q : ℚ × ℚ × ℚ × ℚ),
        n.matrix = none → n.scale = some s → n.translation = some t →
        n.rotation = some q →
        computeModel n =
          mat4identity * scaleMat s * translateMat t * mat4fromQuat q) := by
  constructor
  · intro n l h
    simp [computeModel, h]
  · intro n s t q hm hs ht hq
    simp only [computeModel, hm, hs, ht, hq]
    rw [mat4mul_eq_mul, mat4translate_eq_mul, mat4scale_eq_mul]

def exNodeMat : glTFNode :=
  { mesh := 0, matrix := some [1, 2, 3, 4, 5, 6, 7, 8, 9, 10, 11, 12, 13, 14, 15, 16],
    scale := none, translation := none, rotation := none }

def exNodeTRS : glTFNode :=
  { mesh := 0, matrix := none, scale := some (2, 3, 4),
    translation := some (5, 6, 7), rotation := some (1, 0, 0, 0) }

theorem model_matrix_composition_witness :
    computeModel exNodeMat =
      mat4create [1, 2, 3, 4, 5, 6, 7, 8, 9, 10, 11, 12, 13, 14, 15, 16] ∧
    computeModel exNodeTRS =
      mat4identity * scaleMat (2, 3, 4) * translateMat (5, 6, 7) *
        mat4fromQuat (1, 0, 0, 0) :=
  ⟨model_matrix_composition.1 exNodeMat _ rfl,
   model_matrix_composition.2 exNodeTRS (2, 3, 4) (5, 6, 7) (1, 0, 0, 0)
     rfl rfl rfl rfl⟩

/-! ### Interleave layout (C10) -/

theorem setValsAux_length : ∀ (vals arr : List ℚ) (off : Nat),
    (setValsAux arr off vals).length = arr.length := by
  intro vals
  induction vals with
  | nil => intro arr off; rfl
  | cons v vs ih => intro arr off; simp only [setValsAux, ih, List.length_set]

theorem setValsAux_get_lt : ∀ (vals arr : List ℚ) (off m : Nat), m < off →
    (setValsAux arr off vals).get? m = arr.get? m := by
  intro vals
  induction vals with
  | nil => intro arr off m _; rfl
  | cons v vs ih =>
    intro arr off m hm
    simp only [setValsAux]
    rw [ih _ _ _ (by omega), List.get?_set_ne _ _ (by omega)]

theorem setValsAux_get_at : ∀ (vals arr : List ℚ) (off j : Nat), j < vals.length →
    off + vals.length ≤ arr.length →
    (setValsAux arr off vals).get? (off + j) = vals.get? j := by
  intro vals
  induction vals with
  | nil => intro arr off j hj _; simp at hj
  | cons v vs ih =>
    intro arr off j hj hle
    match j with
    | 0 =>
      simp only [setValsAux, Nat.add_zero]
      rw [setValsAux_get_lt vs _ _ _ (by omega)]
      rw [List.get?_set_eq_of_lt _ (by simp only [List.length_cons] at hle; omega)]
      rfl
    | j' + 1 =>
      simp only [setValsAux]
      have h1 : off + (j' + 1) = (off + 1) + j' := by omega
      rw [h1]
      rw [ih _ _ _ (by simp only [List.length_cons] at hj; omega)
        (by simp only [List.length_set, List.length_cons] at hle ⊢; omega)]
      rfl

theorem typedSet_ok (arr vals out : List ℚ) (off : Nat)
    (h : typedSet arr vals off = .ok out) :
    out = setValsAux arr off vals ∧ off + vals.length ≤ arr.length := by
  simp only [typedSet] at h
  split at h
  · simp only [Except.ok.injEq] at h
    exact ⟨h.symm, by assumption⟩
  · exact absurd h (by simp)

theorem interleaveLoop_get_below (posB texB norB : List ℚ) :
    ∀ (k i pOff tOff nOff : Nat) (arr out : List ℚ),
      interleaveLoop posB texB norB k i pOff tOff nOff arr = .ok out →
      ∀ m, m < 8 * i → out.get? m = arr.get? m := by
  intro k
  induction k with
  | zero =>
    intro i pOff tOff nOff arr out h m _
    simp only [interleaveLoop, Except.ok.injEq] at h
    rw [← h]
  | succ kk ih =>
    intro i pOff tOff nOff arr out h m hm
    simp only [interleaveLoop] at h
    split at h
    · exact absurd h (by simp)
    · rename_i arr1 h1
      split at h
      · exact absurd h (by simp)
      · rename_i arr2 h2
        split at h
        · exact absurd h (by simp)
        · rename_i arr3 h3
          obtain ⟨e1, _⟩ := typedSet_ok _ _ _ _ h1
          obtain ⟨e2, _⟩ := typedSet_ok _ _ _ _ h2
          obtain ⟨e3, _⟩ := typedSet_ok _ _ _ _ h3
          rw [ih _ _ _ _ _ _ h m (by omega)]
          rw [e3, setValsAux_get_lt _ _ _ _ (by omega),
              e2, setValsAux_get_lt _ _ _ _ (by omega),
              e1, setValsAux_get_lt _ _ _ _ (by omega)]

theorem interleaveLoop_writes (posB texB norB : List ℚ) :
    ∀ (k i : Nat) (arr out : List ℚ),
      interleaveLoop posB texB norB k i (3 * i) (2 * i) (3 * i) arr = .ok out →
      ∀ j, j < k →
        (out.get? (8 * (i + j)) = some ((posB.get? (3 * (i + j))).getD 0)) ∧
        (out.get? (8 * (i + j) + 1) = some ((posB.get? (3 * (i + j) + 1)).getD 0)) ∧
        (out.get? (8 * (i + j) + 2) = some ((posB.get? (3 * (i + j) + 2)).getD 0)) ∧
        (out.get? (8 * (i + j) + 3) = some ((texB.get? (2 * (i + j))).getD 0)) ∧
        (out.get? (8 * (i + j) + 4) = some ((texB.get? (2 * (i + j) + 1)).getD 0)) ∧
        (out.get? (8 * (i + j) + 5) = some ((norB.get? (3 * (i + j))).getD 0)) ∧
        (out.get? (8 * (i + j) + 6) = some ((norB.get? (3 * (i + j) + 1)).getD 0)) ∧
        (out.get? (8 * (i + j) + 7) = some ((norB.get? (3 * (i + j) + 2)).getD 0)) := by
  intro k
  induction k with
  | zero => intro i arr out h j hj; omega
  | succ kk ih =>
    intro i arr out h j hj
    simp only [interleaveLoop] at h
    split at h
    · exact absurd h (by simp)
    · rename_i arr1 h1
      split at h
      · exact absurd h (by simp)
      · rename_i arr2 h2
        split at h
        · exact absurd h (by simp)
        · rename_i arr3 h3
          obtain ⟨e1, l1⟩ := typedSet_ok _ _ _ _ h1
          obtain ⟨e2, l2⟩ := typedSet_ok _ _ _ _ h2
          obtain ⟨e3, l3⟩ := typedSet_ok _ _ _ _ h3
          simp only [List.length_cons, List.length_nil] at l1 l2 l3
          have la1 : arr1.length = arr.length := by
            rw [e1, setValsAux_length]
          have la2 : arr2.length = arr.length := by
            rw [e2, setValsAux_length, la1]
          have h' : interleaveLoop posB texB norB kk (i + 1) (3 * (i + 1))
              (2 * (i + 1)) (3 * (i + 1)) arr3 = .ok out := by
            have ee1 : 3 * i + 3 = 3 * (i + 1) := by ring
            have ee2 : 2 * i + 2 = 2 * (i + 1) := by ring
            rw [← ee1, ← ee2]
            exact h
          match j with
          | 0 =>
            have hout : ∀ m, m < 8 * (i + 1) → out.get? m = arr3.get? m :=
              interleaveLoop_get_below posB texB norB kk (i + 1) _ _ _ arr3 out h'
            simp only [Nat.add_zero]
            refine ⟨?_, ?_, ?_, ?_, ?_, ?_, ?_, ?_⟩
            · rw [hout _ (by omega), e3, setValsAux_get_lt _ _ _ _ (by omega),
                e2, setValsAux_get_lt _ _ _ _ (by omega), e1]
              have := setValsAux_get_at
                [(posB.get? (3 * i)).getD 0, (posB.get? (3 * i + 1)).getD 0,
                 (posB.get? (3 * i + 2)).getD 0] arr (8 * i) 0
                (by simp) (by simp only [List.length_cons, List.length_nil]; omega)
              simpa using this
            · rw [hout _ (by omega), e3, setValsAux_get_lt _ _ _ _ (by omega),
                e2, setValsAux_get_lt _ _ _ _ (by omega), e1]
              have := setValsAux_get_at
                [(posB.get? (3 * i)).getD 0, (posB.get? (3 * i + 1)).getD 0,
                 (posB.get? (3 * i + 2)).getD 0] arr (8 * i) 1
                (by simp) (by simp only [List.length_cons, List.length_nil]; omega)
              simpa using this
            · rw [hout _ (by omega), e3, setValsAux_get_lt _ _ _ _ (by omega),
                e2, setValsAux_get_lt _ _ _ _ (by omega), e1]
              have := setValsAux_get_at
                [(posB.get? (3 * i)).getD 0, (posB.get? (3 * i + 1)).getD 0,
                 (posB.get? (3 * i + 2)).getD 0] arr (8 * i) 2
                (by simp) (by simp only [List.length_cons, List.length_nil]; omega)
              simpa using this
            · rw [hout _ (by omega), e3, setValsAux_get_lt _ _ _ _ (by omega), e2]
              have := setValsAux_get_at
                [(texB.get? (2 * i)).getD 0, (texB.get? (2 * i + 1)).getD 0]
                arr1 (8 * i + 3) 0 (by simp)
                (by simp only [List.length_cons, List.length_nil]; omega)
              simpa using this
            · rw [hout _ (by omega), e3, setValsAux_get_lt _ _ _ _ (by omega), e2]
              have := setValsAux_get_at
                [(texB.get? (2 * i)).getD 0, (texB.get? (2 * i + 1)).getD 0]
                arr1 (8 * i + 3) 1 (by simp)
                (by simp only [List.length_cons, List.length_nil]; omega)
              have ee : 8 * i + 3 + 1 = 8 * i + 4 := by omega
              rw [ee] at this
              simpa using this
            · rw [hout _ (by omega), e3]
              have := setValsAux_get_at
                [(norB.get? (3 * i)).getD 0, (norB.get? (3 * i + 1)).getD 0,
                 (norB.get? (3 * i + 2)).getD 0] arr2 (8 * i + 5) 0
                (by simp) (by simp only [List.length_cons, List.length_nil]; omega)
              simpa using this
            · rw [hout _ (by omega), e3]
              have := setValsAux_get_at
                [(norB.get? (3 * i)).getD 0, (norB.get? (3 * i + 1)).getD 0,
                 (norB.get? (3 * i + 2)).getD 0] arr2 (8 * i + 5) 1
                (by simp) (by simp only [List.length_cons, List.length_nil]; omega)
              have ee : 8 * i + 5 + 1 = 8 * i + 6 := by omega
              rw [ee] at this
              simpa using this
            · rw [hout _ (by omega), e3]
              have := setValsAux_get_at
                [(norB.get? (3 * i)).getD 0, (norB.get? (3 * i + 1)).getD 0,
                 (norB.get? (3 * i + 2)).getD 0] arr2 (8 * i + 5) 2
                (by simp) (by simp only [List.length_cons, List.length_nil]; omega)
              have ee : 8 * i + 5 + 2 = 8 * i + 7 := by omega
              rw [ee] at this
              simpa using this
          | j' + 1 =>
            have hres := ih (i + 1) arr3 out h' j' (by omega)
            have ee : i + 1 + j' = i + (j' + 1) := by omega
            rw [ee] at hres
            exact hres

/-- C10: for float32 VEC3 position, VEC2 texture coordinates and VEC3
normal accessors, the independently computed layout metadata — stride 32
bytes, byte offsets 0, 12, 20 for position, texCoord, normal, i.e. 4 bytes
times the hardcoded lane constants 0, 3, 5 and stride lanes 8 — agrees with
the hardcoded interleaving writes: vertex j's position floats land at lanes
8j..8j+2, its texture coordinates at 8j+3..8j+4 and its normal at
8j+5..8j+7 of the vertices array. -/
theorem layout_metadata_matches_interleave :
    (∀ (posAcc texAcc norAcc : glTFAccessor),
        posAcc.componentType = 5126 → posAcc.type = "VEC3" →
        texAcc.componentType = 5126 → texAcc.type = "VEC2" →
        norAcc.componentType = 5126 → norAcc.type = "VEC3" →
        calculateByteLength none = 4 * 0 ∧
        calculateByteLength (some (typeString posAcc)) = 4 * 3 ∧
        calculateByteLength (some (typeString posAcc)) +
            calculateByteLength (some (typeString texAcc)) = 4 * 5 ∧
        calculateByteLength (some (typeString posAcc)) +
            calculateByteLength (some (typeString texAcc)) +
            calculateByteLength (some (typeString norAcc)) = 4 * 8) ∧
    (∀ (posB texB norB : List ℚ) (count : Nat) (out : List ℚ),
        interleaveLoop posB texB norB count 0 0 0 0
            (List.replicate (count * 32 / 4) 0) = .ok out →
        ∀ j, j < count →
          (out.get? (8 * j) = some ((posB.get? (3 * j)).getD 0)) ∧
          (out.get? (8 * j + 1) = some ((posB.get? (3 * j + 1)).getD 0)) ∧
          (out.get? (8 * j + 2) = some ((posB.get? (3 * j + 2)).getD 0)) ∧
          (out.get? (8 * j + 3) = some ((texB.get? (2 * j)).getD 0)) ∧
          (out.get? (8 * j + 4) = some ((texB.get? (2 * j + 1)).getD 0)) ∧
          (out.get? (8 * j + 5) = some ((norB.get? (3 * j)).getD 0)) ∧
          (out.get? (8 * j + 6) = some ((norB.get? (3 * j + 1)).getD 0)) ∧
          (out.get? (8 * j + 7) = some ((norB.get? (3 * j + 2)).getD 0))) := by
  constructor
  · intro posAcc texAcc norAcc hp1 hp2 ht1 ht2 hn1 hn2
    rcases posAcc with ⟨pbv, pct, pcnt, pty⟩
    rcases texAcc with ⟨tbv, tct, tcnt, tty⟩
    rcases norAcc with ⟨nbv, nct, ncnt, nty⟩
    simp only at hp1 hp2 ht1 ht2 hn1 hn2
    subst hp1; subst hp2; subst ht1; subst ht2; subst hn1; subst hn2
    have hps : typeString ⟨pbv, 5126, pcnt, "VEC3"⟩ = "float32x3" := rfl
    have hts : typeString ⟨tbv, 5126, tcnt, "VEC2"⟩ = "float32x2" := rfl
    have hns : typeString ⟨nbv, 5126, ncnt, "VEC3"⟩ = "float32x3" := rfl
    rw [hps, hts, hns]
    decide
  · intro posB texB norB count out h j hj
    have h0 : interleaveLoop posB texB norB count 0 (3 * 0) (2 * 0) (3 * 0)
        (List.replicate (count * 32 / 4) 0) = .ok out := h
    have hres := interleaveLoop_writes posB texB norB count 0 _ out h0 j hj
    simpa using hres

theorem layout_metadata_matches_interleave_witness :
    (calculateByteLength none = 4 * 0 ∧
     calculateByteLength (some (typeString ⟨0, 5126, 3, "VEC3"⟩)) = 4 * 3 ∧
     calculateByteLength (some (typeString ⟨0, 5126, 3, "VEC3"⟩)) +
        calculateByteLength (some (typeString ⟨1, 5126, 3, "VEC2"⟩)) = 4 * 5 ∧
     calculateByteLength (some (typeString ⟨0, 5126, 3, "VEC3"⟩)) +
        calculateByteLength (some (typeString ⟨1, 5126, 3, "VEC2"⟩)) +
        calculateByteLength (some (typeString ⟨2, 5126, 3, "VEC3"⟩)) = 4 * 8) ∧
    ((([10, 11, 12, 20, 21, 30, 31, 32] : List ℚ).get? 0 = some 10) ∧
     (([10, 11, 12, 20, 21, 30, 31, 32] : List ℚ).get? 1 = some 11) ∧
     (([10, 11, 12, 20, 21, 30, 31, 32] : List ℚ).get? 2 = some 12) ∧
     (([10, 11, 12, 20, 21, 30, 31, 32] : List ℚ).get? 3 = some 20) ∧
     (([10, 11, 12, 20, 21, 30, 31, 32] : List ℚ).get? 4 = some 21) ∧
     (([10, 11, 12, 20, 21, 30, 31, 32] : List ℚ).get? 5 = some 30) ∧
     (([10, 11, 12, 20, 21, 30, 31, 32] : List ℚ).get? 6 = some 31) ∧
     (([10, 11, 12, 20, 21, 30, 31, 32] : List ℚ).get? 7 = some 32)) :=
  ⟨layout_metadata_matches_interleave.1 ⟨0, 5126, 3, "VEC3"⟩ ⟨1, 5126, 3, "VEC2"⟩
     ⟨2, 5126, 3, "VEC3"⟩ rfl rfl rfl rfl rfl rfl,
   layout_metadata_matches_interleave.2 [10, 11, 12] [20, 21] [30, 31, 32] 1
     [10, 11, 12, 20, 21, 30, 31, 32] (by decide) 0 (by decide)⟩

end WgpuRenderer
